import Mathlib

/-!
Shallow embedding of `elysia-background` (src/index.ts): the `BackgroundTask`
and `BackgroundTasks` classes and the `background` plugin's `onAfterResponse`
invocation hook.

Modelling conventions:
* `σ` is the type of the mutable world outside the queue (the heap the task
  callables read and write through their side effects).
* `α` is the type of JavaScript argument values; a variadic argument tuple is
  a `List α`.
* `ε` is the type of user-thrown error payloads.  A JavaScript error value is
  either a built-in `Error` object carrying a message (as thrown by
  `BackgroundTask.run` for synchronous functions) or an arbitrary user value.
* A TypeScript async callable is modelled as a total function that, given the
  argument tuple and the current world, returns the new world, an
  `Except`-outcome (fulfilled or rejected), and the list of tasks it pushed
  onto its owning queue via `addTask` while it ran.  Returning the pushes
  explicitly is how the embedding accounts for the fact that a task body may
  call `backgroundTasks.addTask` on the very queue being drained.
* `for (const task of this.tasks)` uses the JavaScript array iterator, which
  re-reads `this.tasks.length` at every step, so elements pushed during the
  loop are visited; the embedding iterates by index over the live list and
  uses a fuel parameter, returning `none` when fuel runs out (the JS loop
  would still be running).
-/

/-- A JavaScript error value: a built-in `Error` object with a message, or an
arbitrary thrown value of type `ε`. -/
inductive TaskError (ε : Type) : Type where
  | builtinError (message : String) : TaskError ε
  | custom (e : ε) : TaskError ε
deriving DecidableEq, Repr

mutual

/-- A TypeScript function value usable as a task callable
(`type TaskFunction<P> = (...args: P) => void | Promise<void>`).
`asyncTag` is the intrinsic nature of the function value that
`func.constructor.name === 'AsyncFunction'` observes; `body` is what invoking
the function does: it consumes the argument tuple and the world and yields
the new world, the settled outcome, and the tasks it pushed onto its owning
queue while running. -/
inductive TaskFunction (σ ε α : Type) : Type where
  | mk (asyncTag : Bool)
       (body : List α → σ → TaskOutcome σ ε α) : TaskFunction σ ε α

/-- The settled result of invoking a task callable: the world after its side
effects, fulfillment or rejection, and the tasks it appended to its owning
queue via `addTask` during execution. -/
inductive TaskOutcome (σ ε α : Type) : Type where
  | mk (world : σ)
       (result : Except (TaskError ε) Unit)
       (appended : List (BackgroundTask σ ε α)) : TaskOutcome σ ε α

/-- `class BackgroundTask` — fields `func`, `args`, `isAsync` (all
`readonly`). -/
inductive BackgroundTask (σ ε α : Type) : Type where
  | mk (func : TaskFunction σ ε α)
       (args : List α)
       (isAsync : Bool) : BackgroundTask σ ε α

end

/-- Field accessor: the intrinsic async/non-async nature of a function value. -/
def TaskFunction.asyncTag {σ ε α : Type} : TaskFunction σ ε α → Bool
  | .mk t _ => t

/-- Field accessor: the behaviour of invoking the function. -/
def TaskFunction.body {σ ε α : Type} :
    TaskFunction σ ε α → List α → σ → TaskOutcome σ ε α
  | .mk _ b => b

/-- Field accessor for `TaskOutcome.world`. -/
def TaskOutcome.world {σ ε α : Type} : TaskOutcome σ ε α → σ
  | .mk w _ _ => w

/-- Field accessor for `TaskOutcome.result`. -/
def TaskOutcome.result {σ ε α : Type} :
    TaskOutcome σ ε α → Except (TaskError ε) Unit
  | .mk _ r _ => r

/-- Field accessor for `TaskOutcome.appended`. -/
def TaskOutcome.appended {σ ε α : Type} :
    TaskOutcome σ ε α → List (BackgroundTask σ ε α)
  | .mk _ _ a => a

/-- Field accessor: `this.func`. -/
def BackgroundTask.func {σ ε α : Type} :
    BackgroundTask σ ε α → TaskFunction σ ε α
  | .mk f _ _ => f

/-- Field accessor: `this.args`. -/
def BackgroundTask.args {σ ε α : Type} : BackgroundTask σ ε α → List α
  | .mk _ a _ => a

/-- Field accessor: `this.isAsync`. -/
def BackgroundTask.isAsync {σ ε α : Type} : BackgroundTask σ ε α → Bool
  | .mk _ _ b => b

/-- `const isAsyncFunction = (func) => func.constructor.name ===
'AsyncFunction'` — runtime introspection of the function value's nature,
modelled as reading the function value's intrinsic tag. -/
def isAsyncFunction {σ ε α : Type} (func : TaskFunction σ ε α) : Bool :=
  func.asyncTag

/-- The `BackgroundTask` constructor: `this.func = func; this.args = args;
this.isAsync = isAsyncFunction(func)`. -/
def BackgroundTask.make {σ ε α : Type} (func : TaskFunction σ ε α)
    (args : List α) : BackgroundTask σ ε α :=
  .mk func args (isAsyncFunction func)

/-- The exact error thrown by `BackgroundTask.run` when the wrapped function
is not async (the spec's `TaskKindError`). -/
def taskKindError {ε : Type} : TaskError ε :=
  .builtinError
    "Background task does not support synchronous functions. Please use async functions."

/-- `BackgroundTask.run`: if `this.isAsync` then `await this.func(...this.args)`
else throw the synchronous-task error without invoking the function. -/
def BackgroundTask.run {σ ε α : Type} (t : BackgroundTask σ ε α) (w : σ) :
    TaskOutcome σ ε α :=
  if t.isAsync then t.func.body t.args w
  else .mk w (.error taskKindError) []

/-- `class BackgroundTasks` — its single field `tasks`, the ordered array of
background tasks. -/
structure BackgroundTasks (σ ε α : Type) : Type where
  tasks : List (BackgroundTask σ ε α)

/-- The `BackgroundTasks` constructor with its default: `new BackgroundTasks()`
starts from the empty array. -/
def BackgroundTasks.make {σ ε α : Type} : BackgroundTasks σ ε α :=
  ⟨[]⟩

/-- `BackgroundTasks.addTask(func, ...args)`: construct a `BackgroundTask` and
push it onto the end of `this.tasks`. -/
def BackgroundTasks.addTask {σ ε α : Type} (q : BackgroundTasks σ ε α)
    (func : TaskFunction σ ε α) (args : List α) : BackgroundTasks σ ε α :=
  ⟨q.tasks ++ [BackgroundTask.make func args]⟩

/-- One drain pass of `BackgroundTasks.run`, iterating by index over the live
task array exactly as the JavaScript array iterator does: at each step the
iterator re-checks `i < tasks.length`; the awaited task may have pushed new
tasks, which are appended to the live list before the next step.  `fuel`
bounds the number of loop steps; `none` means the fuel ran out, i.e. the
JavaScript loop would still be running. -/
def runFrom {σ ε α : Type} :
    Nat → List (BackgroundTask σ ε α) → Nat → σ →
      Option (List (BackgroundTask σ ε α) × σ × Except (TaskError ε) Unit)
  | 0, _, _, _ => none
  | fuel + 1, tasks, i, w =>
    match tasks[i]? with
    | none => some (tasks, w, .ok ())
    | some t =>
      match (t.run w).result with
      | .error e => some (tasks ++ (t.run w).appended, (t.run w).world, .error e)
      | .ok _ => runFrom fuel (tasks ++ (t.run w).appended) (i + 1) (t.run w).world

/-- `BackgroundTasks.run`: `for (const task of this.tasks) { await task.run() }`
— drain from index 0. -/
def BackgroundTasks.run {σ ε α : Type} (fuel : Nat) (q : BackgroundTasks σ ε α)
    (w : σ) :
    Option (BackgroundTasks σ ε α × σ × Except (TaskError ε) Unit) :=
  (runFrom fuel q.tasks 0 w).map (fun r => (⟨r.1⟩, r.2.1, r.2.2))

/-- An observable delivery of a failed drain's error by the invocation hook:
either the user-configured `onError` callback is invoked with the error, or
the error is written to the console with the plugin's fixed tag. -/
inductive SinkEvent (ε : Type) : Type where
  | customHandler (e : TaskError ε) : SinkEvent ε
  | consoleError (tag : String) (e : TaskError ε) : SinkEvent ε
deriving DecidableEq, Repr

/-- The fixed tag the default sink prefixes: `'[elysia-background] Task
failed:'`. -/
def defaultSinkTag : String := "[elysia-background] Task failed:"

/-- The `.catch` handler the `onAfterResponse` hook attaches to
`backgroundTasks.run()`: on rejection with `error`, if `options?.onError` is
configured invoke it with `error`, otherwise `console.error` the fixed tag and
`error`; on fulfillment nothing happens.  The value is the list of sink
deliveries the hook performs; the hook itself always returns normally. -/
def onAfterResponseCatch {ε : Type} (hasOnError : Bool)
    (result : Except (TaskError ε) Unit) : List (SinkEvent ε) :=
  match result with
  | .ok _ => []
  | .error e =>
    if hasOnError then [.customHandler e]
    else [.consoleError defaultSinkTag e]

/-- Sequential state threading: the world after running task `t` on world
`w`.  `foldl taskStep` over a task list is the world after running the tasks
one at a time in list order, each awaited to completion before the next. -/
def taskStep {σ ε α : Type} (w : σ) (t : BackgroundTask σ ε α) : σ :=
  (t.run w).world

/-- A concrete async function over a `Nat` counter world: adds its first
argument to the counter.  Used to instantiate the theorems below on concrete
inputs. -/
def incFunc : TaskFunction Nat Nat Nat :=
  .mk true (fun args w => .mk (w + args.headD 0) (Except.ok ()) [])

/-- A concrete async function that always rejects with the given value. -/
def failFunc (e : Nat) : TaskFunction Nat Nat Nat :=
  .mk true (fun _ w => .mk w (Except.error (TaskError.custom e)) [])

/-- A concrete non-async function whose body, were it ever invoked, would add
100 to the counter world. -/
def syncFunc : TaskFunction Nat Nat Nat :=
  .mk false (fun _ w => .mk (w + 100) (Except.ok ()) [])

/-- A concrete async function that adds 1 to the counter and pushes a new
task (`incFunc` applied to 10) onto its owning queue while running. -/
def spawnFunc : TaskFunction Nat Nat Nat :=
  .mk true (fun _ w =>
    .mk (w + 1) (Except.ok ()) [BackgroundTask.make incFunc [10]])

/-! ### Generic lemmas about the drain loop -/

/-- With no fuel left the drain loop has no result. -/
theorem runFrom_zero {σ ε α : Type} (tasks : List (BackgroundTask σ ε α))
    (i : Nat) (w : σ) : runFrom 0 tasks i w = none :=
  rfl

/-- When the iterator index has passed the end of the live task array, the
loop terminates fulfilled, with no further effect on the world. -/
theorem runFrom_done {σ ε α : Type} (fuel : Nat)
    (tasks : List (BackgroundTask σ ε α)) (i : Nat) (w : σ)
    (hi : tasks.length ≤ i) :
    runFrom (fuel + 1) tasks i w = some (tasks, w, .ok ()) := by
  simp [runFrom, List.getElem?_eq_none hi]

/-- One fulfilled loop step: the awaited task ran to completion, its pushes
joined the live array, and the loop moves to the next index. -/
theorem runFrom_step_ok {σ ε α : Type} (fuel : Nat)
    (tasks : List (BackgroundTask σ ε α)) (i : Nat) (w : σ)
    (t : BackgroundTask σ ε α)
    (ht : tasks[i]? = some t) (hres : (t.run w).result = .ok ()) :
    runFrom (fuel + 1) tasks i w =
      runFrom fuel (tasks ++ (t.run w).appended) (i + 1) (t.run w).world := by
  simp [runFrom, ht, hres]

/-- One rejected loop step: the awaited task rejected, so the loop stops at
once and surfaces that same error. -/
theorem runFrom_step_err {σ ε α : Type} (fuel : Nat)
    (tasks : List (BackgroundTask σ ε α)) (i : Nat) (w : σ)
    (t : BackgroundTask σ ε α) (e : TaskError ε)
    (ht : tasks[i]? = some t) (hres : (t.run w).result = .error e) :
    runFrom (fuel + 1) tasks i w =
      some (tasks ++ (t.run w).appended, (t.run w).world, .error e) := by
  simp [runFrom, ht, hres]

/-- Running the loop across a contiguous block `pre` of tasks that always
fulfil and push nothing advances the index past the block and threads the
world through the tasks of `pre` one at a time, in list order. -/
theorem runFrom_advance {σ ε α : Type} (pre : List (BackgroundTask σ ε α)) :
    ∀ (fuel : Nat) (done rest : List (BackgroundTask σ ε α)) (w : σ),
      (∀ t ∈ pre, ∀ v, (t.run v).result = .ok () ∧ (t.run v).appended = []) →
      runFrom (fuel + pre.length) (done ++ pre ++ rest) done.length w =
        runFrom fuel (done ++ pre ++ rest) (done.length + pre.length)
          (pre.foldl taskStep w) := by
  induction pre with
  | nil =>
    intro fuel done rest w _
    simp
  | cons p ps ih =>
    intro fuel done rest w hok
    have hp := hok p (by simp)
    have ht : (done ++ (p :: ps) ++ rest)[done.length]? = some p := by
      rw [List.getElem?_append_left (by simp)]
      rw [List.getElem?_append_right (le_refl _)]
      simp
    rw [show fuel + (p :: ps).length = (fuel + ps.length) + 1 by
      simp only [List.length_cons]; omega]
    rw [runFrom_step_ok (fuel + ps.length) _ done.length w p ht (hp w).1]
    rw [(hp w).2, List.append_nil]
    have ih' := ih fuel (done ++ [p]) rest ((p.run w).world)
      (fun t htm v => hok t (List.mem_cons_of_mem _ htm) v)
    simp only [List.append_assoc, List.singleton_append, List.length_append,
      List.length_singleton, List.length_cons] at ih' ⊢
    rw [List.foldl_cons]
    have harith : done.length + (ps.length + 1) = done.length + 1 + ps.length := by
      omega
    rw [harith]
    exact ih'

/-- A full drain of a task list whose tasks always fulfil and push nothing:
it terminates fulfilled, leaves the task list unchanged, and the final world
is the fold of the tasks over the initial world in list order. -/
theorem runFrom_all_ok {σ ε α : Type} (tasks : List (BackgroundTask σ ε α))
    (fuel : Nat) (w : σ)
    (hok : ∀ t ∈ tasks, ∀ v, (t.run v).result = .ok () ∧ (t.run v).appended = []) :
    runFrom (fuel + 1 + tasks.length) tasks 0 w =
      some (tasks, tasks.foldl taskStep w, .ok ()) := by
  have h := runFrom_advance tasks (fuel + 1) [] [] w hok
  simp only [List.nil_append, List.append_nil, List.length_nil, Nat.zero_add] at h
  rw [h]
  exact runFrom_done fuel tasks tasks.length (tasks.foldl taskStep w) (le_refl _)

/-- Whatever the drain loop does, the final live task array extends the one
it started from: the loop only ever appends, never removes or reorders. -/
theorem runFrom_extends {σ ε α : Type} :
    ∀ (fuel : Nat) (tasks : List (BackgroundTask σ ε α)) (i : Nat) (w : σ)
      (ts' : List (BackgroundTask σ ε α)) (w' : σ) (r : Except (TaskError ε) Unit),
      runFrom fuel tasks i w = some (ts', w', r) → ∃ rest, ts' = tasks ++ rest := by
  intro fuel
  induction fuel with
  | zero =>
    intro tasks i w ts' w' r h
    simp [runFrom] at h
  | succ f ih =>
    intro tasks i w ts' w' r h
    simp only [runFrom] at h
    split at h
    · simp only [Option.some.injEq, Prod.mk.injEq] at h
      exact ⟨[], by rw [← h.1, List.append_nil]⟩
    · split at h
      · simp only [Option.some.injEq, Prod.mk.injEq] at h
        exact ⟨_, h.1.symm⟩
      · obtain ⟨rest, hrest⟩ := ih _ _ _ _ _ _ h
        exact ⟨_, by rw [hrest, List.append_assoc]⟩

/-! ### Claim theorems -/

/-- Claim C1: for every queue (of tasks that always fulfil and push nothing),
`BackgroundTasks.run` executes the queued tasks strictly in insertion order,
awaiting each to completion before the next — the final world is the left
fold of the task steps over the initial world, in list order — and resolves
fulfilled with no value, leaving the queue unchanged.  Instantiated at
`q.tasks = []` the hypotheses are vacuous and the fold is the initial world,
so draining an empty queue succeeds immediately with no error and no side
effects. -/
theorem C1_run_sequential_all_ok {σ ε α : Type} (fuel : Nat)
    (q : BackgroundTasks σ ε α) (w : σ)
    (hfuel : q.tasks.length < fuel)
    (hok : ∀ t ∈ q.tasks, ∀ v, (t.run v).result = .ok () ∧ (t.run v).appended = []) :
    BackgroundTasks.run fuel q w = some (q, q.tasks.foldl taskStep w, .ok ()) := by
  obtain ⟨g, rfl⟩ : ∃ g, fuel = g + 1 + q.tasks.length :=
    ⟨fuel - q.tasks.length - 1, by omega⟩
  unfold BackgroundTasks.run
  rw [runFrom_all_ok q.tasks g w hok]
  rfl

/-- Witness for C1: the three counter-increment tasks of the spec's example
scenario (add 1, then 2, then 3) drain to counter 6 with a fulfilled result,
and an empty queue drains to the unchanged counter 0. -/
theorem C1_run_sequential_all_ok_witness :
    BackgroundTasks.run 4
        ⟨[BackgroundTask.make incFunc [1], BackgroundTask.make incFunc [2],
          BackgroundTask.make incFunc [3]]⟩ 0 =
      some (⟨[BackgroundTask.make incFunc [1], BackgroundTask.make incFunc [2],
          BackgroundTask.make incFunc [3]]⟩, 6, .ok ()) :=
  C1_run_sequential_all_ok 4
    ⟨[BackgroundTask.make incFunc [1], BackgroundTask.make incFunc [2],
      BackgroundTask.make incFunc [3]]⟩ 0 (by simp)
    (by
      intro t ht v
      simp only [List.mem_cons, List.not_mem_nil, or_false] at ht
      rcases ht with rfl | rfl | rfl <;> exact ⟨rfl, rfl⟩)

/-- Claim C2: when the first `pre.length` tasks always fulfil (pushing
nothing) and the next task rejects, the drain stops right there: the result
is exactly that task's error (not wrapped), and the final world is the world
left by the failing task — none of the later tasks `post` ran, so none of
their side effects occurred. -/
theorem C2_fail_fast {σ ε α : Type} (fuel : Nat)
    (pre post : List (BackgroundTask σ ε α)) (tf : BackgroundTask σ ε α)
    (w : σ) (e : TaskError ε)
    (hfuel : pre.length < fuel)
    (hok : ∀ t ∈ pre, ∀ v, (t.run v).result = .ok () ∧ (t.run v).appended = [])
    (hfail : (tf.run (pre.foldl taskStep w)).result = .error e) :
    BackgroundTasks.run fuel ⟨pre ++ tf :: post⟩ w =
      some (⟨(pre ++ tf :: post) ++ (tf.run (pre.foldl taskStep w)).appended⟩,
        (tf.run (pre.foldl taskStep w)).world, .error e) := by
  obtain ⟨g, rfl⟩ : ∃ g, fuel = g + 1 + pre.length :=
    ⟨fuel - pre.length - 1, by omega⟩
  unfold BackgroundTasks.run
  have h := runFrom_advance pre (g + 1) [] (tf :: post) w hok
  simp only [List.nil_append, List.length_nil, Nat.zero_add] at h
  have ht : (pre ++ tf :: post)[pre.length]? = some tf := by
    rw [List.getElem?_append_right (le_refl _)]
    simp
  rw [h, runFrom_step_err g _ pre.length _ tf e ht hfail]
  rfl

/-- Witness for C2: with an increment task, then a task rejecting with the
custom error 7, then another increment task, the drain stops after the
failure — counter 1, error exactly `custom 7`, the queue still holding all
three tasks. -/
theorem C2_fail_fast_witness :
    BackgroundTasks.run 2
        ⟨[BackgroundTask.make incFunc [1]] ++ BackgroundTask.make (failFunc 7) [] ::
          [BackgroundTask.make incFunc [5]]⟩ 0 =
      some (⟨([BackgroundTask.make incFunc [1]] ++ BackgroundTask.make (failFunc 7) [] ::
          [BackgroundTask.make incFunc [5]]) ++ []⟩, 1,
        .error (TaskError.custom 7)) :=
  C2_fail_fast 2 [BackgroundTask.make incFunc [1]]
    [BackgroundTask.make incFunc [5]] (BackgroundTask.make (failFunc 7) [])
    0 (TaskError.custom 7) (by simp)
    (by
      intro t ht v
      simp only [List.mem_cons, List.not_mem_nil, or_false] at ht
      rcases ht with rfl
      exact ⟨rfl, rfl⟩)
    rfl

/-- Claim C3: a task whose `isAsync` flag is false rejects at once with the
exact synchronous-task `Error` (the spec's `TaskKindError`), leaves the world
untouched and pushes nothing — the wrapped function is never invoked, so none
of its side effects occur, whatever its body would have done. -/
theorem C3_sync_task_rejected {σ ε α : Type} (t : BackgroundTask σ ε α)
    (w : σ) (h : t.isAsync = false) :
    t.run w = .mk w (.error taskKindError) [] := by
  simp [BackgroundTask.run, h]

/-- Witness for C3: a task built from the non-async `syncFunc` (whose body
would add 100 to the counter) rejects with the synchronous-task error and
leaves the counter at 0: the body never ran. -/
theorem C3_sync_task_rejected_witness :
    (BackgroundTask.make syncFunc []).run 0 =
      .mk 0 (.error taskKindError) [] :=
  C3_sync_task_rejected (BackgroundTask.make syncFunc []) 0 rfl

/-- Claim C5: a task constructed from an async function value invokes that
function with exactly the argument tuple bound at construction and its run
outcome is the outcome of that invocation — fulfilment when the function
fulfils, and on rejection the very error value the function rejected with,
unwrapped. -/
theorem C5_async_task_invokes {σ ε α : Type} (f : TaskFunction σ ε α)
    (args : List α) (w : σ) (h : isAsyncFunction f = true) :
    (BackgroundTask.make f args).run w = f.body args w := by
  simp [BackgroundTask.run, BackgroundTask.make, BackgroundTask.isAsync,
    BackgroundTask.func, BackgroundTask.args, h]

/-- Witness for C5: the async `failFunc 9` task rejects with exactly
`custom 9`, the unwrapped value its function rejected with. -/
theorem C5_async_task_invokes_witness :
    (BackgroundTask.make (failFunc 9) []).run 3 = (failFunc 9).body [] 3 :=
  C5_async_task_invokes (failFunc 9) [] 3 rfl

/-- Claim C4: whenever a drain fails, the `onAfterResponse` hook's `.catch`
handler delivers the drain's error to exactly one sink — the configured
`onError` callback, invoked once with the exact error object, when one is
configured, and otherwise the console sink with the fixed tag — and on a
fulfilled drain it delivers nothing.  The handler is a total function into
sink deliveries: the error is consumed by `.catch` and never escapes as a
failure of the caller that triggered the drain. -/
theorem C4_error_single_sink {σ ε α : Type} (fuel : Nat)
    (q q' : BackgroundTasks σ ε α) (w w' : σ) (hasOnError : Bool)
    (e : TaskError ε)
    (_hfail : BackgroundTasks.run fuel q w = some (q', w', .error e)) :
    onAfterResponseCatch hasOnError (.error e) =
        (if hasOnError then [SinkEvent.customHandler e]
         else [SinkEvent.consoleError defaultSinkTag e]) ∧
      (onAfterResponseCatch hasOnError (.error e)).length = 1 ∧
      onAfterResponseCatch hasOnError (.ok ()) = ([] : List (SinkEvent ε)) := by
  cases hasOnError <;> simp [onAfterResponseCatch]

/-- Witness for C4: draining a queue holding one synchronous task fails with
the synchronous-task error, and with a configured `onError` the hook performs
exactly one delivery, the custom handler applied to that exact error. -/
theorem C4_error_single_sink_witness :
    onAfterResponseCatch true (.error (taskKindError : TaskError Nat)) =
        (if true then [SinkEvent.customHandler taskKindError]
         else [SinkEvent.consoleError defaultSinkTag taskKindError]) ∧
      (onAfterResponseCatch true
        (.error (taskKindError : TaskError Nat))).length = 1 ∧
      onAfterResponseCatch true (.ok ()) = ([] : List (SinkEvent Nat)) :=
  C4_error_single_sink (σ := Nat) (α := Nat) 1
    ⟨[BackgroundTask.make syncFunc []]⟩ ⟨[BackgroundTask.make syncFunc []]⟩
    0 0 true taskKindError rfl

/-- Claim C6: `addTask` appends the task constructed from the given function
and arguments at the end of the sequence: the new task list is the old one
with the new task appended, the length grows by exactly one, every previously
enqueued task is unchanged at its position (FIFO order preserved), and the
new task sits at the old length.  The operation is a total function — it
never fails and has no other effect on the queue. -/
theorem C6_addTask_appends {σ ε α : Type} (q : BackgroundTasks σ ε α)
    (func : TaskFunction σ ε α) (args : List α) :
    (q.addTask func args).tasks = q.tasks ++ [BackgroundTask.make func args] ∧
      (q.addTask func args).tasks.length = q.tasks.length + 1 ∧
      (∀ i, i < q.tasks.length → (q.addTask func args).tasks[i]? = q.tasks[i]?) ∧
      (q.addTask func args).tasks[q.tasks.length]? =
        some (BackgroundTask.make func args) := by
  refine ⟨rfl, by simp [BackgroundTasks.addTask], fun i hi => ?_, ?_⟩
  · simp [BackgroundTasks.addTask, List.getElem?_append_left hi]
  · simp [BackgroundTasks.addTask, List.getElem?_concat_length]

/-- Witness for C6: adding a second increment task to a one-task queue leaves
the first task in place, puts the new task at index 1, and the length is 2. -/
theorem C6_addTask_appends_witness :
    ((⟨[BackgroundTask.make incFunc [1]]⟩ : BackgroundTasks Nat Nat Nat).addTask
        incFunc [2]).tasks =
        [BackgroundTask.make incFunc [1]] ++ [BackgroundTask.make incFunc [2]] ∧
      ((⟨[BackgroundTask.make incFunc [1]]⟩ : BackgroundTasks Nat Nat Nat).addTask
        incFunc [2]).tasks.length =
        [BackgroundTask.make incFunc [1]].length + 1 ∧
      (∀ i, i < [BackgroundTask.make incFunc [1]].length →
        ((⟨[BackgroundTask.make incFunc [1]]⟩ : BackgroundTasks Nat Nat Nat).addTask
          incFunc [2]).tasks[i]? = [BackgroundTask.make incFunc [1]][i]?) ∧
      ((⟨[BackgroundTask.make incFunc [1]]⟩ : BackgroundTasks Nat Nat Nat).addTask
        incFunc [2]).tasks[[BackgroundTask.make incFunc [1]].length]? =
        some (BackgroundTask.make incFunc [2]) :=
  C6_addTask_appends ⟨[BackgroundTask.make incFunc [1]]⟩ incFunc [2]

/-- Claim C7: construction classifies the callable exactly once — the stored
`isAsync` flag is `isAsyncFunction` of the callable, and the stored argument
tuple and callable are exactly the ones given.  The classification is never
re-evaluated: `run` consults only the stored flag, never the function value's
intrinsic nature again, so two tasks agreeing on the stored flag, body and
arguments run identically even when their function values' intrinsic tags
differ.  The fields are values of a pure datatype, fixed once constructed. -/
theorem C7_construction_classifies_once {σ ε α : Type} (f : TaskFunction σ ε α)
    (args : List α) :
    (BackgroundTask.make f args).isAsync = isAsyncFunction f ∧
      (BackgroundTask.make f args).args = args ∧
      (BackgroundTask.make f args).func = f ∧
      (∀ (tag1 tag2 : Bool) (body : List α → σ → TaskOutcome σ ε α)
        (as : List α) (b : Bool) (w : σ),
        (BackgroundTask.mk (.mk tag1 body) as b).run w =
          (BackgroundTask.mk (.mk tag2 body) as b).run w) :=
  ⟨rfl, rfl, rfl, fun _ _ _ _ _ _ => rfl⟩

/-- Witness for C7: instantiation at `incFunc` with arguments `[1, 2]`. -/
theorem C7_construction_classifies_once_witness :
    (BackgroundTask.make incFunc [1, 2]).isAsync = isAsyncFunction incFunc ∧
      (BackgroundTask.make incFunc [1, 2]).args = [1, 2] ∧
      (BackgroundTask.make incFunc [1, 2]).func = incFunc ∧
      (∀ (tag1 tag2 : Bool) (body : List Nat → Nat → TaskOutcome Nat Nat Nat)
        (as : List Nat) (b : Bool) (w : Nat),
        (BackgroundTask.mk (.mk tag1 body) as b).run w =
          (BackgroundTask.mk (.mk tag2 body) as b).run w) :=
  C7_construction_classifies_once incFunc [1, 2]

/-- Claim C9: `run` iterates the live task array, not a snapshot.  With a
queue `[t0, t2]` where `t0` pushes `t1` onto the queue while it runs, the
drain executes `t0`, then `t2`, then the freshly appended `t1` — the task
appended mid-drain runs in the same drain pass, after every task enqueued
before it, and the final world reflects all three executions in that order. -/
theorem C9_live_array_iteration {σ ε α : Type} (t0 t1 t2 : BackgroundTask σ ε α)
    (w w1 w2 w3 : σ)
    (h0 : t0.run w = .mk w1 (.ok ()) [t1])
    (h2 : t2.run w1 = .mk w2 (.ok ()) [])
    (h1 : t1.run w2 = .mk w3 (.ok ()) []) :
    BackgroundTasks.run 4 ⟨[t0, t2]⟩ w = some (⟨[t0, t2, t1]⟩, w3, .ok ()) := by
  have s0 : (t0.run w).result = .ok () := by rw [h0]; rfl
  have s2 : (t2.run w1).result = .ok () := by rw [h2]; rfl
  have s1 : (t1.run w2).result = .ok () := by rw [h1]; rfl
  have key : runFrom 4 [t0, t2] 0 w = some ([t0, t2, t1], w3, Except.ok ()) :=
    calc runFrom 4 [t0, t2] 0 w
        = runFrom 3 ([t0, t2] ++ (t0.run w).appended) 1 (t0.run w).world :=
          runFrom_step_ok 3 [t0, t2] 0 w t0 rfl s0
      _ = runFrom 3 [t0, t2, t1] 1 w1 := by rw [h0]; rfl
      _ = runFrom 2 ([t0, t2, t1] ++ (t2.run w1).appended) 2 (t2.run w1).world :=
          runFrom_step_ok 2 [t0, t2, t1] 1 w1 t2 rfl s2
      _ = runFrom 2 [t0, t2, t1] 2 w2 := by rw [h2]; rfl
      _ = runFrom 1 ([t0, t2, t1] ++ (t1.run w2).appended) 3 (t1.run w2).world :=
          runFrom_step_ok 1 [t0, t2, t1] 2 w2 t1 rfl s1
      _ = runFrom 1 [t0, t2, t1] 3 w3 := by rw [h1]; rfl
      _ = some ([t0, t2, t1], w3, Except.ok ()) :=
          runFrom_done 0 [t0, t2, t1] 3 w3 (by simp)
  unfold BackgroundTasks.run
  rw [show (⟨[t0, t2]⟩ : BackgroundTasks σ ε α).tasks = [t0, t2] from rfl, key]
  rfl

/-- Witness for C9: `spawnFunc` adds 1 to the counter and pushes an add-10
task mid-drain; with an add-20 task enqueued second, the drain runs all three
in order spawn, add-20, add-10, ending at counter 31 with the pushed task at
the end of the live array. -/
theorem C9_live_array_iteration_witness :
    BackgroundTasks.run 4
        ⟨[BackgroundTask.make spawnFunc [], BackgroundTask.make incFunc [20]]⟩ 0 =
      some (⟨[BackgroundTask.make spawnFunc [], BackgroundTask.make incFunc [20],
        BackgroundTask.make incFunc [10]]⟩, 31, .ok ()) :=
  C9_live_array_iteration (BackgroundTask.make spawnFunc [])
    (BackgroundTask.make incFunc [10]) (BackgroundTask.make incFunc [20])
    0 1 21 31 rfl rfl rfl

/-- Claim C10: a drain never removes tasks.  Whatever a terminating drain
returns, the final task list is the initial one with (possibly zero) tasks
appended: every originally held task is still present, unchanged, at its
original position and in the original order — which is why a second `run`
would re-execute the tasks from the beginning. -/
theorem C10_run_never_removes {σ ε α : Type} (fuel : Nat)
    (q q' : BackgroundTasks σ ε α) (w w' : σ) (r : Except (TaskError ε) Unit)
    (h : BackgroundTasks.run fuel q w = some (q', w', r)) :
    (∃ rest, q'.tasks = q.tasks ++ rest) ∧
      ∀ i, i < q.tasks.length → q'.tasks[i]? = q.tasks[i]? := by
  unfold BackgroundTasks.run at h
  cases hr : runFrom fuel q.tasks 0 w with
  | none =>
    rw [hr] at h
    simp at h
  | some out =>
    rw [hr] at h
    obtain ⟨ts', w'', r'⟩ := out
    simp only [Option.map_some', Option.some.injEq, Prod.mk.injEq] at h
    obtain ⟨hq, hw, hrr⟩ := h
    obtain ⟨rest, hrest⟩ := runFrom_extends fuel q.tasks 0 w ts' w'' r' hr
    have hq' : q'.tasks = ts' := by rw [← hq]
    constructor
    · exact ⟨rest, by rw [hq', hrest]⟩
    · intro i hi
      rw [hq', hrest, List.getElem?_append_left hi]

/-- Witness for C10: draining a one-task queue returns the queue still
holding that task at index 0. -/
theorem C10_run_never_removes_witness :
    (∃ rest, (⟨[BackgroundTask.make incFunc [1]]⟩ : BackgroundTasks Nat Nat Nat).tasks =
        [BackgroundTask.make incFunc [1]] ++ rest) ∧
      ∀ i, i < [BackgroundTask.make incFunc [1]].length →
        (⟨[BackgroundTask.make incFunc [1]]⟩ : BackgroundTasks Nat Nat Nat).tasks[i]? =
          [BackgroundTask.make incFunc [1]][i]? :=
  C10_run_never_removes 2 ⟨[BackgroundTask.make incFunc [1]]⟩
    ⟨[BackgroundTask.make incFunc [1]]⟩ 0 1 (.ok ()) rfl
